import Mathlib

/-!
Verification development for the EquiCare secure recording lifecycle
subsystem: credential authentication with lockout and audit trail
(src/ui/pages/login.py), encrypted audio storage (src/services/audio_service.py),
the transcription/summarization pipeline (src/services/transcription_service.py,
src/services/summarization_service.py) and the case/recording persistence layer
(src/services/case_service.py).

Database tables are embedded as lists of records; a SQLAlchemy
`query(...).filter_by(...).first()` becomes `List.find?`, and mutating the
returned row becomes `updateFirst` (replace the first matching element).
Wall-clock time (`datetime.utcnow()`) is an explicit `Nat` parameter.
External collaborators (bcrypt, Fernet, Whisper, GPT) are modelled as
parameters carrying the contract their libraries document.
-/

namespace EquiCare

/-- Replace the first element of a list satisfying `p` by its image under `f`;
mirrors mutating the single ORM row returned by `filter_by(...).first()`. -/
def updateFirst {α : Type} (p : α → Bool) (f : α → α) : List α → List α
  | [] => []
  | x :: xs => if p x then f x :: xs else x :: updateFirst p f xs

theorem updateFirst_of_find?_none {α : Type} (p : α → Bool) (f : α → α) :
    ∀ l : List α, l.find? p = none → updateFirst p f l = l := by
  intro l
  induction l with
  | nil => intro _; rfl
  | cons x xs ih =>
    intro h
    rw [List.find?_cons] at h
    cases hp : p x with
    | true => rw [hp] at h; exact absurd h (by simp)
    | false =>
      rw [hp] at h
      simp only [cond_false] at h
      simp [updateFirst, hp, ih h]

theorem find?_updateFirst {α : Type} (p : α → Bool) (f : α → α) :
    ∀ l : List α, ∀ u : α, l.find? p = some u → p (f u) = true →
      (updateFirst p f l).find? p = some (f u) := by
  intro l
  induction l with
  | nil => intro u h; simp [List.find?] at h
  | cons x xs ih =>
    intro u h hpf
    rw [List.find?_cons] at h
    cases hp : p x with
    | true =>
      rw [hp] at h
      simp only [cond_true] at h
      injection h with h
      subst h
      simp [updateFirst, hp, List.find?_cons, hpf]
    | false =>
      rw [hp] at h
      simp only [cond_false] at h
      simp [updateFirst, hp, List.find?_cons, ih u h hpf]

theorem find?_append_of_none {α : Type} (p : α → Bool) :
    ∀ l₁ l₂ : List α, l₁.find? p = none → (l₁ ++ l₂).find? p = l₂.find? p := by
  intro l₁
  induction l₁ with
  | nil => intro l₂ _; rfl
  | cons x xs ih =>
    intro l₂ h
    rw [List.find?_cons] at h
    cases hp : p x with
    | true => rw [hp] at h; exact absurd h (by simp)
    | false =>
      rw [hp] at h
      simp only [cond_false] at h
      rw [List.cons_append, List.find?_cons, hp]
      simp only [cond_false]
      exact ih l₂ h

/-! ## Authentication (src/auth/password_utils.py, src/ui/pages/login.py) -/

/-- Security configuration read from config.yaml into `Settings`
(`MAX_LOGIN_ATTEMPTS`, `LOCKOUT_DURATION_MINUTES`); time is counted in
minutes so the lockout duration adds directly. -/
structure Config where
  maxLoginAttempts : Nat
  lockoutDurationMinutes : Nat
deriving DecidableEq

/-- The `users` table row (src/database/models.py, class User), restricted to
the columns the authentication path reads or writes. -/
structure User where
  userId : Nat
  username : String
  passwordHash : String
  isActive : Bool
  failedLoginAttempts : Nat
  lockedUntil : Option Nat
  lastLogin : Option Nat
deriving DecidableEq

/-- The `audit_log` table row (src/database/models.py, class AuditLog),
restricted to the columns `log_audit` populates with non-constant data. -/
structure AuditEntry where
  userId : Nat
  action : String
  details : String
deriving DecidableEq

/-- The bcrypt library (not part of this repository) as the contract its
documentation gives: hashing with a salt verifies against the original
password and against nothing else. `hashpw` takes password then salt, as
`bcrypt.hashpw(password, salt)` does. -/
structure BcryptScheme where
  hashpw : String → String → String
  checkpw : String → String → Bool
  checkpw_hashpw : ∀ p s, checkpw p (hashpw p s) = true
  checkpw_sound : ∀ p q s, checkpw q (hashpw p s) = true → q = p

/-- src/auth/password_utils.py, `hash_password`: bcrypt hash with a fresh
salt (the salt drawn by `bcrypt.gensalt()` is the explicit argument here). -/
def hash_password (B : BcryptScheme) (salt password : String) : String :=
  B.hashpw password salt

/-- src/auth/password_utils.py, `verify_password`: delegate to
`bcrypt.checkpw`. -/
def verify_password (B : BcryptScheme) (password passwordHash : String) : Bool :=
  B.checkpw password passwordHash

/-- `locked_until and locked_until > datetime.utcnow()` from login.py line 104. -/
def lockActive (lockedUntil : Option Nat) (now : Nat) : Bool :=
  match lockedUntil with
  | none => false
  | some t => now < t

/-- src/ui/pages/login.py, `authenticate_user` (lines 76-146): returns the
boolean result together with the users table after commit and the audit
entries written during the attempt (`log_audit`, lines 149-159; the session
context manager in db_manager.py commits added rows on exit). -/
def authenticate_user (cfg : Config) (B : BcryptScheme) (now : Nat)
    (username password : String) (db : List User) :
    Bool × List User × List AuditEntry :=
  if username = "" ∨ password = "" then
    (false, db, [])
  else
    match db.find? (fun u => u.username == username) with
    | none => (false, db, [])
    | some user =>
      if user.isActive = false then
        (false, db, [])
      else if lockActive user.lockedUntil now then
        (false, db, [])
      else if verify_password B password user.passwordHash = false then
        let attempts := user.failedLoginAttempts + 1
        let user' :=
          if cfg.maxLoginAttempts ≤ attempts then
            { user with failedLoginAttempts := attempts,
                        lockedUntil := some (now + cfg.lockoutDurationMinutes) }
          else
            { user with failedLoginAttempts := attempts }
        (false,
         updateFirst (fun u => u.username == username) (fun _ => user') db,
         [⟨user.userId, "login_failed", "Failed login attempt for " ++ username⟩])
      else
        let user' := { user with failedLoginAttempts := 0, lockedUntil := none,
                                 lastLogin := some now }
        (true,
         updateFirst (fun u => u.username == username) (fun _ => user') db,
         [⟨user.userId, "login", "User " ++ username ++ " logged in"⟩])

/-- A sequence of login attempts, each a password together with the
`datetime.utcnow()` at which it is made; the returned users table of each
attempt feeds the next. -/
def runAttempts (cfg : Config) (B : BcryptScheme) (username : String) :
    List (String × Nat) → List User → List User
  | [], db => db
  | (pwd, t) :: rest, db =>
      runAttempts cfg B username rest (authenticate_user cfg B t username pwd db).2.1

theorem runAttempts_append (cfg : Config) (B : BcryptScheme) (username : String) :
    ∀ (l₁ l₂ : List (String × Nat)) (db : List User),
      runAttempts cfg B username (l₁ ++ l₂) db =
        runAttempts cfg B username l₂ (runAttempts cfg B username l₁ db) := by
  intro l₁
  induction l₁ with
  | nil => intro l₂ db; rfl
  | cons a rest ih =>
    intro l₂ db
    cases a with
    | mk pwd t => simp [runAttempts, ih]

theorem auth_wrong_password_below (cfg : Config) (B : BcryptScheme)
    (now : Nat) (username pwd : String) (db : List User) (u : User)
    (hu : db.find? (fun x => x.username == username) = some u)
    (hn : username ≠ "") (hp : pwd ≠ "")
    (ha : u.isActive = true) (hl : u.lockedUntil = none)
    (hv : verify_password B pwd u.passwordHash = false)
    (hbelow : u.failedLoginAttempts + 1 < cfg.maxLoginAttempts) :
    authenticate_user cfg B now username pwd db =
      (false,
       updateFirst (fun x => x.username == username)
         (fun _ => { u with failedLoginAttempts := u.failedLoginAttempts + 1 }) db,
       [⟨u.userId, "login_failed", "Failed login attempt for " ++ username⟩]) := by
  have hth : ¬ (cfg.maxLoginAttempts ≤ u.failedLoginAttempts + 1) := by omega
  rw [authenticate_user, if_neg (by simp [hn, hp]), hu]
  simp [ha, lockActive, hl, hv, hth]

theorem auth_wrong_password_lock (cfg : Config) (B : BcryptScheme)
    (now : Nat) (username pwd : String) (db : List User) (u : User)
    (hu : db.find? (fun x => x.username == username) = some u)
    (hn : username ≠ "") (hp : pwd ≠ "")
    (ha : u.isActive = true) (hl : u.lockedUntil = none)
    (hv : verify_password B pwd u.passwordHash = false)
    (hmax : cfg.maxLoginAttempts ≤ u.failedLoginAttempts + 1) :
    authenticate_user cfg B now username pwd db =
      (false,
       updateFirst (fun x => x.username == username)
         (fun _ => { u with failedLoginAttempts := u.failedLoginAttempts + 1,
                            lockedUntil := some (now + cfg.lockoutDurationMinutes) }) db,
       [⟨u.userId, "login_failed", "Failed login attempt for " ++ username⟩]) := by
  rw [authenticate_user, if_neg (by simp [hn, hp]), hu]
  simp [ha, lockActive, hl, hv, hmax]

theorem runAttempts_below (cfg : Config) (B : BcryptScheme) (username : String) :
    ∀ (attempts : List (String × Nat)) (db : List User) (u : User),
      db.find? (fun x => x.username == username) = some u →
      username ≠ "" →
      u.isActive = true → u.lockedUntil = none →
      (∀ pt ∈ attempts, pt.1 ≠ "" ∧ verify_password B pt.1 u.passwordHash = false) →
      u.failedLoginAttempts + attempts.length < cfg.maxLoginAttempts →
      (runAttempts cfg B username attempts db).find? (fun x => x.username == username) =
        some { u with failedLoginAttempts := u.failedLoginAttempts + attempts.length } := by
  intro attempts
  induction attempts with
  | nil =>
    intro db u hu _ _ _ _ _
    simpa [runAttempts] using hu
  | cons a rest ih =>
    intro db u hu hn ha hl hw hbound
    cases a with
    | mk pwd t =>
      have hpw := hw (pwd, t) (by simp)
      have hstep := auth_wrong_password_below cfg B t username pwd db u hu hn
        hpw.1 ha hl hpw.2 (by simp at hbound; omega)
      have hmatch : (u.username == username) = true := by
        simpa using List.find?_some hu
      have hfind' :
          (updateFirst (fun x => x.username == username)
            (fun _ => { u with failedLoginAttempts := u.failedLoginAttempts + 1 }) db).find?
              (fun x => x.username == username) =
            some { u with failedLoginAttempts := u.failedLoginAttempts + 1 } := by
        apply find?_updateFirst _ _ _ _ hu
        simpa using hmatch
      rw [runAttempts, hstep]
      have := ih (updateFirst (fun x => x.username == username)
          (fun _ => { u with failedLoginAttempts := u.failedLoginAttempts + 1 }) db)
        { u with failedLoginAttempts := u.failedLoginAttempts + 1 }
        hfind' hn ha hl
        (by intro pt hpt; exact hw pt (by simp [hpt]))
        (by simp at hbound ⊢; omega)
      rw [this]
      have harith : u.failedLoginAttempts + 1 + rest.length =
          u.failedLoginAttempts + (rest.length + 1) := by omega
      simp [harith]

/-- C1: brute-force lockout. (a) Starting from an active, unlocked user with a
clean failed-attempt counter, exactly `MAX_LOGIN_ATTEMPTS` consecutive failed
password attempts leave the lock unset through the first `MAX−1` of them and
set `locked_until` to the last attempt time plus the lockout duration, with
the counter at `MAX`. (b) While `locked_until` lies in the future every
attempt — whatever the password — returns `False` and leaves the users table
and audit log untouched. (c) Once `locked_until` has passed, an attempt with
the correct password returns `True`, resets the counter to 0, clears the lock
and sets `last_login` to the current time. -/
theorem authenticate_user_lockout_cycle (cfg : Config) (B : BcryptScheme)
    (username : String) :
    (∀ (attempts : List (String × Nat)) (plast : String) (tlast : Nat)
        (db : List User) (u : User),
      db.find? (fun x => x.username == username) = some u →
      username ≠ "" →
      u.isActive = true → u.lockedUntil = none → u.failedLoginAttempts = 0 →
      (∀ pt ∈ attempts ++ [(plast, tlast)],
        pt.1 ≠ "" ∧ verify_password B pt.1 u.passwordHash = false) →
      (attempts ++ [(plast, tlast)]).length = cfg.maxLoginAttempts →
      (runAttempts cfg B username attempts db).find? (fun x => x.username == username) =
          some { u with failedLoginAttempts := attempts.length } ∧
      (runAttempts cfg B username (attempts ++ [(plast, tlast)]) db).find?
          (fun x => x.username == username) =
        some { u with failedLoginAttempts := cfg.maxLoginAttempts,
                      lockedUntil := some (tlast + cfg.lockoutDurationMinutes) }) ∧
    (∀ (now T : Nat) (pwd : String) (db : List User) (u : User),
      db.find? (fun x => x.username == username) = some u →
      username ≠ "" → pwd ≠ "" →
      u.isActive = true → u.lockedUntil = some T → now < T →
      authenticate_user cfg B now username pwd db = (false, db, [])) ∧
    (∀ (now T : Nat) (pwd : String) (db : List User) (u : User),
      db.find? (fun x => x.username == username) = some u →
      username ≠ "" → pwd ≠ "" →
      u.isActive = true → u.lockedUntil = some T → T ≤ now →
      verify_password B pwd u.passwordHash = true →
      (authenticate_user cfg B now username pwd db).1 = true ∧
      (authenticate_user cfg B now username pwd db).2.1.find?
          (fun x => x.username == username) =
        some { u with failedLoginAttempts := 0, lockedUntil := none,
                      lastLogin := some now }) := by
  refine ⟨?_, ?_, ?_⟩
  · intro attempts plast tlast db u hu hn ha hl hc hw hlen
    have hmax1 : 1 ≤ cfg.maxLoginAttempts := by
      simp at hlen; omega
    have hbelow : u.failedLoginAttempts + attempts.length < cfg.maxLoginAttempts := by
      simp at hlen; omega
    have hfront := runAttempts_below cfg B username attempts db u hu hn ha hl
      (by intro pt hpt; exact hw pt (by simp [hpt])) hbelow
    constructor
    · rw [hfront]
      simp [hc]
    · rw [runAttempts_append, runAttempts]
      have hplast := hw (plast, tlast) (by simp)
      set u1 : User := { u with failedLoginAttempts := u.failedLoginAttempts + attempts.length }
      have hstep := auth_wrong_password_lock cfg B tlast username plast
        (runAttempts cfg B username attempts db) u1 hfront hn hplast.1 ha
        (by simp [u1, hl]) hplast.2 (by simp [u1]; simp at hlen; omega)
      rw [hstep]
      have hmatch : (fun x => x.username == username) u1 = true := by
        have := List.find?_some hu
        simpa [u1] using this
      rw [runAttempts]
      have hfind' := find?_updateFirst (fun x => x.username == username)
        (fun _ => { u1 with failedLoginAttempts := u1.failedLoginAttempts + 1,
                            lockedUntil := some (tlast + cfg.lockoutDurationMinutes) })
        (runAttempts cfg B username attempts db) u1 hfront (by simpa using hmatch)
      rw [hfind']
      have harith : u1.failedLoginAttempts + 1 = cfg.maxLoginAttempts := by
        simp [u1]; simp at hlen; omega
      have hlen1 : attempts.length + 1 = cfg.maxLoginAttempts := by
        simp at hlen; omega
      simp [u1, harith, hc, hlen1]
  · intro now T pwd db u hu hn hp ha hl hfut
    rw [authenticate_user, if_neg (by simp [hn, hp]), hu]
    simp [ha, lockActive, hl, hfut]
  · intro now T pwd db u hu hn hp ha hl hpast hv
    have hnl : ¬ (now < T) := by omega
    have hres : authenticate_user cfg B now username pwd db =
        (true,
         updateFirst (fun x => x.username == username)
           (fun _ => { u with failedLoginAttempts := 0, lockedUntil := none,
                              lastLogin := some now }) db,
         [⟨u.userId, "login", "User " ++ username ++ " logged in"⟩]) := by
      rw [authenticate_user, if_neg (by simp [hn, hp]), hu]
      simp [ha, lockActive, hl, hv, hnl]
    refine ⟨by rw [hres], ?_⟩
    rw [hres]
    have hmatch : (u.username == username) = true := by
      simpa using List.find?_some hu
    exact find?_updateFirst _ _ db u hu (by simpa using hmatch)

/-- A concrete scheme satisfying the bcrypt contract, used to instantiate
witnesses: the "hash" is the password itself and verification is equality. -/
def toyBcrypt : BcryptScheme where
  hashpw := fun p _ => p
  checkpw := fun q h => q == h
  checkpw_hashpw := by intro p s; simp
  checkpw_sound := by intro p q s h; simpa using h

/-- Witness for C1 at `MAX_LOGIN_ATTEMPTS = 3`, lockout 15 minutes: three
failed attempts at times 10, 11, 12 lock alice until 27; at time 20 even the
correct password is rejected; at time 30 the correct password succeeds and
resets the counter, lock and last-login. -/
theorem authenticate_user_lockout_cycle_witness :
    ((runAttempts ⟨3, 15⟩ toyBcrypt "alice" [("a", 10), ("b", 11), ("c", 12)]
        [⟨1, "alice", "pw", true, 0, none, none⟩]).find?
        (fun x => x.username == "alice") =
      some ⟨1, "alice", "pw", true, 3, some 27, none⟩) ∧
    (authenticate_user ⟨3, 15⟩ toyBcrypt 20 "alice" "pw"
        [⟨1, "alice", "pw", true, 3, some 27, none⟩] =
      (false, [⟨1, "alice", "pw", true, 3, some 27, none⟩], [])) ∧
    ((authenticate_user ⟨3, 15⟩ toyBcrypt 30 "alice" "pw"
        [⟨1, "alice", "pw", true, 3, some 27, none⟩]).1 = true ∧
     (authenticate_user ⟨3, 15⟩ toyBcrypt 30 "alice" "pw"
        [⟨1, "alice", "pw", true, 3, some 27, none⟩]).2.1.find?
        (fun x => x.username == "alice") =
      some ⟨1, "alice", "pw", true, 0, none, some 30⟩) := by
  obtain ⟨h1, h2, h3⟩ := authenticate_user_lockout_cycle ⟨3, 15⟩ toyBcrypt "alice"
  refine ⟨?_, ?_, ?_⟩
  · have := (h1 [("a", 10), ("b", 11)] "c" 12
      [⟨1, "alice", "pw", true, 0, none, none⟩]
      ⟨1, "alice", "pw", true, 0, none, none⟩
      (by decide) (by decide) (by decide) (by decide) (by decide)
      (by decide) (by decide)).2
    simpa using this
  · exact h2 20 27 "pw" [⟨1, "alice", "pw", true, 3, some 27, none⟩]
      ⟨1, "alice", "pw", true, 3, some 27, none⟩
      (by decide) (by decide) (by decide) (by decide) (by decide) (by decide)
  · have := h3 30 27 "pw" [⟨1, "alice", "pw", true, 3, some 27, none⟩]
      ⟨1, "alice", "pw", true, 3, some 27, none⟩
      (by decide) (by decide) (by decide) (by decide) (by decide) (by decide)
      (by decide)
    simpa using this

/-- C4 counterexample: an attempt against a deactivated account writes no
audit entry at all (login.py returns at line 101 before any `log_audit`
call), so it is not the case that every attempt writes exactly one entry. -/
theorem authenticate_user_audit_counterexample :
    (authenticate_user ⟨3, 15⟩ toyBcrypt 0 "carol" "pw"
        [⟨7, "carol", "pw", false, 0, none, none⟩]).2.2.length = 0 := by
  decide

/-- C4 as amended: exactly the successful and wrong-password attempts write
one audit entry, tagged `login` resp. `login_failed`; attempts rejected for
deactivation, an active lock, an unknown username, or empty input write no
audit entry. -/
theorem authenticate_user_audit_per_outcome (cfg : Config) (B : BcryptScheme)
    (now : Nat) (username pwd : String) (db : List User) :
    (∀ u : User, db.find? (fun x => x.username == username) = some u →
      username ≠ "" → pwd ≠ "" → u.isActive = true →
      lockActive u.lockedUntil now = false →
      verify_password B pwd u.passwordHash = true →
      (authenticate_user cfg B now username pwd db).2.2 =
        [⟨u.userId, "login", "User " ++ username ++ " logged in"⟩]) ∧
    (∀ u : User, db.find? (fun x => x.username == username) = some u →
      username ≠ "" → pwd ≠ "" → u.isActive = true →
      lockActive u.lockedUntil now = false →
      verify_password B pwd u.passwordHash = false →
      (authenticate_user cfg B now username pwd db).2.2 =
        [⟨u.userId, "login_failed", "Failed login attempt for " ++ username⟩]) ∧
    (∀ u : User, db.find? (fun x => x.username == username) = some u →
      username ≠ "" → pwd ≠ "" → u.isActive = false →
      (authenticate_user cfg B now username pwd db).2.2 = []) ∧
    (∀ u : User, db.find? (fun x => x.username == username) = some u →
      username ≠ "" → pwd ≠ "" → u.isActive = true →
      lockActive u.lockedUntil now = true →
      (authenticate_user cfg B now username pwd db).2.2 = []) ∧
    (db.find? (fun x => x.username == username) = none →
      (authenticate_user cfg B now username pwd db).2.2 = []) ∧
    (username = "" ∨ pwd = "" →
      (authenticate_user cfg B now username pwd db).2.2 = []) := by
  refine ⟨?_, ?_, ?_, ?_, ?_, ?_⟩
  · intro u hu hn hp ha hlock hv
    rw [authenticate_user, if_neg (by simp [hn, hp]), hu]
    simp [ha, hlock, hv]
  · intro u hu hn hp ha hlock hv
    rw [authenticate_user, if_neg (by simp [hn, hp]), hu]
    simp [ha, hlock, hv]
  · intro u hu hn hp ha
    rw [authenticate_user, if_neg (by simp [hn, hp]), hu]
    simp [ha]
  · intro u hu hn hp ha hlock
    rw [authenticate_user, if_neg (by simp [hn, hp]), hu]
    simp [ha, hlock]
  · intro hu
    by_cases hemp : username = "" ∨ pwd = ""
    · rw [authenticate_user, if_pos hemp]
    · rw [authenticate_user, if_neg hemp, hu]
  · intro hemp
    rw [authenticate_user, if_pos hemp]

/-- Witness for the amended C4: a success writes one `login` entry, a wrong
password one `login_failed` entry, and a locked attempt writes none. -/
theorem authenticate_user_audit_per_outcome_witness :
    ((authenticate_user ⟨3, 15⟩ toyBcrypt 5 "dave" "pw"
        [⟨2, "dave", "pw", true, 0, none, none⟩]).2.2 =
      [⟨2, "login", "User dave logged in"⟩]) ∧
    ((authenticate_user ⟨3, 15⟩ toyBcrypt 5 "dave" "xx"
        [⟨2, "dave", "pw", true, 0, none, none⟩]).2.2 =
      [⟨2, "login_failed", "Failed login attempt for dave"⟩]) ∧
    ((authenticate_user ⟨3, 15⟩ toyBcrypt 5 "dave" "pw"
        [⟨2, "dave", "pw", true, 3, some 9, none⟩]).2.2 = []) := by
  obtain ⟨h1, h2, _, h4, _, _⟩ :=
    authenticate_user_audit_per_outcome ⟨3, 15⟩ toyBcrypt 5 "dave" "pw"
      [⟨2, "dave", "pw", true, 0, none, none⟩]
  obtain ⟨_, h2x, _, _, _, _⟩ :=
    authenticate_user_audit_per_outcome ⟨3, 15⟩ toyBcrypt 5 "dave" "xx"
      [⟨2, "dave", "pw", true, 0, none, none⟩]
  obtain ⟨_, _, _, h4y, _, _⟩ :=
    authenticate_user_audit_per_outcome ⟨3, 15⟩ toyBcrypt 5 "dave" "pw"
      [⟨2, "dave", "pw", true, 3, some 9, none⟩]
  refine ⟨?_, ?_, ?_⟩
  · exact h1 ⟨2, "dave", "pw", true, 0, none, none⟩
      (by decide) (by decide) (by decide) (by decide) (by decide) (by decide)
  · exact h2x ⟨2, "dave", "pw", true, 0, none, none⟩
      (by decide) (by decide) (by decide) (by decide) (by decide) (by decide)
  · exact h4y ⟨2, "dave", "pw", true, 3, some 9, none⟩
      (by decide) (by decide) (by decide) (by decide) (by decide)

/-- C9: for every password, `verify_password` accepts the output of
`hash_password` on that password (whatever salt bcrypt drew), and rejects it
for every different password. -/
theorem verify_password_hash_password (B : BcryptScheme) (salt p w : String) :
    verify_password B p (hash_password B salt p) = true ∧
    (w ≠ p → verify_password B w (hash_password B salt p) = false) := by
  constructor
  · exact B.checkpw_hashpw p salt
  · intro hw
    cases h : verify_password B w (hash_password B salt p) with
    | false => rfl
    | true => exact absurd (B.checkpw_sound p w salt h) hw

/-- Witness for C9 at the toy scheme, password `pw1`, wrong password `x`. -/
theorem verify_password_hash_password_witness :
    verify_password toyBcrypt "pw1" (hash_password toyBcrypt "s" "pw1") = true ∧
    verify_password toyBcrypt "x" (hash_password toyBcrypt "s" "pw1") = false := by
  have h := verify_password_hash_password toyBcrypt "s" "pw1" "x"
  exact ⟨h.1, h.2 (by decide)⟩

/-! ## Audio vault (src/services/audio_service.py)

Payloads and ciphertexts are byte lists (`List Nat`), the audio directory is a
map from file name to contents, and Fernet (the `cryptography` library, not
part of this repository) is a parameter carrying the authenticated-encryption
contract its documentation gives: decryption inverts encryption under the
same key and accepts nothing that was not produced by `encrypt` with that
key (any tampered token raises `InvalidToken`). Python floats are modelled
as rationals and `round(x, 2)` as round-half-even at two decimals. -/

/-- The Fernet authenticated symmetric scheme, by contract. -/
structure Cipher where
  encrypt : List Nat → List Nat → List Nat
  decrypt : List Nat → List Nat → Option (List Nat)
  decrypt_encrypt : ∀ k m, decrypt k (encrypt k m) = some m
  decrypt_sound : ∀ k c m, decrypt k c = some m → c = encrypt k m

/-- The audio directory: file name to stored bytes. -/
def FileStore : Type := String → Option (List Nat)

/-- `open(file_path, 'wb')` followed by `write`: create or overwrite. -/
def fsWrite (fs : FileStore) (path : String) (data : List Nat) : FileStore :=
  fun p => if p = path then some data else fs p

/-- Round-half-even on rationals, the rounding mode of Python `round`,
computed on the numerator and denominator: `f` is the floor of `q` and the
remainder is compared against one half. -/
def roundHalfEven (q : ℚ) : ℤ :=
  let n := q.num
  let d := (q.den : ℤ)
  let f := Int.fdiv n d
  let rem := n - f * d
  if 2 * rem < d then f
  else if d < 2 * rem then f + 1
  else if f % 2 = 0 then f else f + 1

/-- Python `round(x, 2)`. -/
def round2 (q : ℚ) : ℚ := (roundHalfEven (q * 100) : ℚ) / 100

theorem int_fdiv_one (z : ℤ) : Int.fdiv z 1 = z := by
  rcases z with m | m
  · cases m with
    | zero => rfl
    | succ k => simp [Int.fdiv, Nat.div_one]
  · simp [Int.fdiv, Nat.div_one]

theorem roundHalfEven_intCast (z : ℤ) : roundHalfEven ((z : ℤ) : ℚ) = z := by
  simp [roundHalfEven, int_fdiv_one]

/-- Rounding an integer-valued quantity to two decimals leaves it unchanged. -/
theorem round2_int (z : ℤ) : round2 ((z : ℤ) : ℚ) = (z : ℚ) := by
  rw [round2]
  have h : ((z : ℚ) * 100) = (((z * 100 : ℤ) : ℤ) : ℚ) := by push_cast; ring
  rw [h, roundHalfEven_intCast]
  push_cast
  ring

/-- Byte `i` of a payload (all accesses below are guarded by length checks). -/
def byteAt (b : List Nat) (i : Nat) : Nat := b.getD i 0

/-- `struct.unpack('<I', ...)`: 4 bytes little-endian. -/
def readUInt32LE (b : List Nat) (off : Nat) : Nat :=
  byteAt b off + 256 * byteAt b (off + 1) + 65536 * byteAt b (off + 2) +
    16777216 * byteAt b (off + 3)

/-- The ASCII bytes of `RIFF`. -/
def riffMagic : List Nat := [82, 73, 70, 70]

/-- The ASCII bytes of `WAVE`. -/
def waveMagic : List Nat := [87, 65, 86, 69]

/-- src/services/audio_service.py, `_calculate_duration` (lines 75-111):
under 44 bytes returns `None`; without a RIFF/WAVE header estimates
`size / 32000` (unrounded, from the `try` body); with a WAV header divides
`(size − 44)` by the byte rate at offset 28 and rounds to two decimals — a
zero byte rate raises `ZeroDivisionError`, caught by the `except` branch
which returns `round(size / 32000, 2)`. -/
def calculate_duration (b : List Nat) : Option ℚ :=
  if b.length < 44 then none
  else if ¬(b.take 4 = riffMagic ∧ (b.drop 8).take 4 = waveMagic) then
    some ((b.length : ℚ) / 32000)
  else
    let byteRate := readUInt32LE b 28
    if byteRate = 0 then some (round2 ((b.length : ℚ) / 32000))
    else some (round2 (((b.length : ℚ) - 44) / (byteRate : ℚ)))

/-- The result dict of `save_audio`. -/
structure StoredAudio where
  filePath : String
  fileSize : Nat
  durationSeconds : Option ℚ
deriving DecidableEq

/-- `f"case_{case_id}_user_{user_id}_{timestamp}.enc"` from save_audio. -/
def audio_filename (caseId userId : Nat) (timestamp : String) : String :=
  "case_" ++ toString caseId ++ "_user_" ++ toString userId ++ "_" ++
    timestamp ++ ".enc"

/-- src/services/audio_service.py, `save_audio` (lines 38-73): encrypt the
payload, write the ciphertext to a timestamped file, report the encrypted
file size and the estimated duration of the plaintext. -/
def save_audio (c : Cipher) (key : List Nat) (fs : FileStore)
    (audioBytes : List Nat) (caseId userId : Nat) (timestamp : String) :
    StoredAudio × FileStore :=
  let path := audio_filename caseId userId timestamp
  let encrypted := c.encrypt key audioBytes
  let fs' := fsWrite fs path encrypted
  (⟨path, encrypted.length, calculate_duration audioBytes⟩, fs')

/-- src/services/audio_service.py, `load_audio` (lines 113-131): read the
stored ciphertext and decrypt it; a missing file raises an I/O error and a
rejected token raises Fernet `InvalidToken`. -/
def load_audio (c : Cipher) (key : List Nat) (fs : FileStore)
    (filePath : String) : Except String (List Nat) :=
  match fs filePath with
  | none => Except.error "file not found"
  | some data =>
    match c.decrypt key data with
    | none => Except.error "invalid token"
    | some audio => Except.ok audio

/-- C3: loading the reference returned by `save_audio` with the same key
yields exactly the original payload; whenever `load_audio` succeeds the
stored bytes are a genuine encryption of what it returns (so corrupted or
partial bytes are never returned); and if the stored file holds anything
that is not an encryption of some payload under the key, `load_audio` fails
with a decryption error. -/
theorem save_audio_load_audio_roundtrip (c : Cipher) (key : List Nat)
    (fs : FileStore) (audio : List Nat) (caseId userId : Nat) (ts : String) :
    load_audio c key (save_audio c key fs audio caseId userId ts).2
        (save_audio c key fs audio caseId userId ts).1.filePath =
      Except.ok audio ∧
    (∀ (fs2 : FileStore) (data b : List Nat),
      fs2 (save_audio c key fs audio caseId userId ts).1.filePath = some data →
      load_audio c key fs2 (save_audio c key fs audio caseId userId ts).1.filePath =
        Except.ok b →
      data = c.encrypt key b) ∧
    (∀ (fs2 : FileStore) (data : List Nat),
      fs2 (save_audio c key fs audio caseId userId ts).1.filePath = some data →
      (∀ m, data ≠ c.encrypt key m) →
      load_audio c key fs2 (save_audio c key fs audio caseId userId ts).1.filePath =
        Except.error "invalid token") := by
  refine ⟨?_, ?_, ?_⟩
  · simp [load_audio, save_audio, fsWrite, c.decrypt_encrypt]
  · intro fs2 data b hdata hload
    rw [load_audio, hdata] at hload
    cases hdec : c.decrypt key data with
    | none => simp [hdec] at hload
    | some audio2 =>
      simp [hdec] at hload
      subst hload
      exact c.decrypt_sound key data audio2 hdec
  · intro fs2 data hdata htamper
    rw [load_audio, hdata]
    cases hdec : c.decrypt key data with
    | none => simp [hdec]
    | some m => exact absurd (c.decrypt_sound key data m hdec) (htamper m)

/-- A concrete scheme satisfying the Fernet contract, used to instantiate
witnesses: the ciphertext is the key prepended to the plaintext. -/
def toyCipher : Cipher where
  encrypt := fun k m => k ++ m
  decrypt := fun k c => if c.take k.length = k then some (c.drop k.length) else none
  decrypt_encrypt := by
    intro k m
    simp [List.take_left, List.drop_left]
  decrypt_sound := by
    intro k c m h
    simp only at h
    by_cases hc : c.take k.length = k
    · rw [if_pos hc] at h
      simp only [Option.some.injEq] at h
      subst h
      conv_lhs => rw [← List.take_append_drop k.length c]
      rw [hc]
    · rw [if_neg hc] at h
      exact absurd h (by simp)

/-- Witness for C3: payload `[5, 6]` under key `[1]` round-trips, and a file
tampered to `[9]` (not an encryption of anything under `[1]`) is rejected. -/
theorem save_audio_load_audio_roundtrip_witness :
    load_audio toyCipher [1] (save_audio toyCipher [1] (fun _ => none) [5, 6] 1 2 "t").2
        (save_audio toyCipher [1] (fun _ => none) [5, 6] 1 2 "t").1.filePath =
      Except.ok [5, 6] ∧
    load_audio toyCipher [1]
        (fun p => if p = "case_1_user_2_t.enc" then some [9] else none)
        (save_audio toyCipher [1] (fun _ => none) [5, 6] 1 2 "t").1.filePath =
      Except.error "invalid token" := by
  obtain ⟨h1, _, h3⟩ :=
    save_audio_load_audio_roundtrip toyCipher [1] (fun _ => none) [5, 6] 1 2 "t"
  refine ⟨h1, ?_⟩
  exact h3 (fun p => if p = "case_1_user_2_t.enc" then some [9] else none) [9]
    (by rfl)
    (by intro m hm; simp [toyCipher] at hm)

theorem calculate_duration_wav (b : List Nat) (hlen : 44 ≤ b.length)
    (hr : b.take 4 = riffMagic) (hw : (b.drop 8).take 4 = waveMagic)
    (hbr : readUInt32LE b 28 ≠ 0) :
    calculate_duration b =
      some (round2 (((b.length : ℚ) - 44) / (readUInt32LE b 28 : ℚ))) := by
  rw [calculate_duration, if_neg (by omega), if_neg (by simp [hr, hw])]
  simp only []
  rw [if_neg hbr]

theorem calculate_duration_wav_zero_rate (b : List Nat) (hlen : 44 ≤ b.length)
    (hr : b.take 4 = riffMagic) (hw : (b.drop 8).take 4 = waveMagic)
    (hbr : readUInt32LE b 28 = 0) :
    calculate_duration b = some (round2 ((b.length : ℚ) / 32000)) := by
  rw [calculate_duration, if_neg (by omega), if_neg (by simp [hr, hw])]
  simp only []
  rw [if_pos hbr]

theorem calculate_duration_fallback (b : List Nat) (hlen : 44 ≤ b.length)
    (hns : ¬(b.take 4 = riffMagic ∧ (b.drop 8).take 4 = waveMagic)) :
    calculate_duration b = some ((b.length : ℚ) / 32000) := by
  rw [calculate_duration, if_neg (by omega), if_pos hns]

theorem calculate_duration_short (b : List Nat) (hlt : b.length < 44) :
    calculate_duration b = none := by
  rw [calculate_duration, if_pos hlt]

/-- C8 counterexample: a 10-byte non-WAV payload gets no duration at all —
`_calculate_duration` returns `None` for any payload under 44 bytes (line
88-89 of audio_service.py), so a duration is not always produced. -/
theorem save_audio_duration_counterexample :
    (save_audio toyCipher [1] (fun _ => none) (List.replicate 10 0) 1 2
        "t").1.durationSeconds = none := by
  decide

/-- C8 as amended: `save_audio` reports `_calculate_duration` of the
payload, which yields (a) for payloads of at least 44 bytes with a RIFF/WAVE
header and nonzero byte rate, `(size - 44) / byteRate` rounded to two
decimals; (b) for such headers with byte rate zero, `round(size / 32000, 2)`
via the exception path; (c) for any other payload of at least 44 bytes,
`size / 32000` (unrounded) — in particular a non-WAV blob of 320,000 bytes
yields exactly 10 seconds; but (d) payloads under 44 bytes get no duration
(`None`). -/
theorem save_audio_duration_spec :
    (∀ (c : Cipher) (key : List Nat) (fs : FileStore) (b : List Nat)
        (cid uid : Nat) (ts : String),
      (save_audio c key fs b cid uid ts).1.durationSeconds = calculate_duration b) ∧
    (∀ b : List Nat, 44 ≤ b.length →
      b.take 4 = riffMagic → (b.drop 8).take 4 = waveMagic →
      readUInt32LE b 28 ≠ 0 →
      calculate_duration b =
        some (round2 (((b.length : ℚ) - 44) / (readUInt32LE b 28 : ℚ)))) ∧
    (∀ b : List Nat, 44 ≤ b.length →
      b.take 4 = riffMagic → (b.drop 8).take 4 = waveMagic →
      readUInt32LE b 28 = 0 →
      calculate_duration b = some (round2 ((b.length : ℚ) / 32000))) ∧
    (∀ b : List Nat, 44 ≤ b.length →
      ¬(b.take 4 = riffMagic ∧ (b.drop 8).take 4 = waveMagic) →
      calculate_duration b = some ((b.length : ℚ) / 32000)) ∧
    (∀ b : List Nat, b.length < 44 → calculate_duration b = none) ∧
    calculate_duration (List.replicate 320000 0) = some 10 := by
  refine ⟨fun _ _ _ _ _ _ _ => rfl, calculate_duration_wav,
    calculate_duration_wav_zero_rate, calculate_duration_fallback,
    calculate_duration_short, ?_⟩
  have hns : ¬((List.replicate 320000 (0 : Nat)).take 4 = riffMagic ∧
      ((List.replicate 320000 (0 : Nat)).drop 8).take 4 = waveMagic) := by
    intro hcontra
    have h1 := hcontra.1
    rw [List.take_replicate] at h1
    have hmin : min 4 320000 = 4 := by norm_num
    rw [hmin] at h1
    exact absurd h1 (by decide)
  have h := calculate_duration_fallback (List.replicate 320000 0)
    (by rw [List.length_replicate]; norm_num) hns
  rw [h, List.length_replicate]
  norm_num [Option.some.injEq]

/-- A 60-byte WAV payload: RIFF/WAVE header, sample rate 16000 at offset 24,
byte rate 2 at offset 28, and 16 bytes of sample data. -/
def wavSample : List Nat :=
  [82, 73, 70, 70, 0, 0, 0, 0, 87, 65, 86, 69] ++ List.replicate 12 0 ++
    [128, 62, 0, 0] ++ [2, 0, 0, 0] ++ List.replicate 12 0 ++ List.replicate 16 0

/-- Witness for the amended C8: the 60-byte WAV sample with byte rate 2
yields `(60 - 44) / 2 = 8` seconds; a 64-byte non-WAV blob of zeros yields
`64 / 32000 = 1/500`; a 3-byte payload yields no duration. -/
theorem save_audio_duration_spec_witness :
    calculate_duration wavSample = some 8 ∧
    calculate_duration (List.replicate 64 0) = some (1 / 500) ∧
    calculate_duration [1, 2, 3] = none := by
  obtain ⟨_, hwav, _, hfall, hshort, _⟩ := save_audio_duration_spec
  refine ⟨?_, ?_, ?_⟩
  · have h := hwav wavSample (by decide) (by decide) (by decide) (by decide)
    rw [h]
    have hl : wavSample.length = 60 := by decide
    have hb : readUInt32LE wavSample 28 = 2 := by decide
    rw [hl, hb]
    have h8 : (((60 : Nat) : ℚ) - 44) / ((2 : Nat) : ℚ) = (((8 : ℤ) : ℤ) : ℚ) := by
      push_cast
      norm_num
    rw [h8, round2_int]
    norm_num
  · have h := hfall (List.replicate 64 0) (by decide) (by decide)
    rw [h]
    norm_num
  · exact hshort [1, 2, 3] (by decide)

/-! ## Cases and recordings (src/services/case_service.py) -/

/-- The `cases` table row (src/database/models.py, class Case); the dict
returned by `get_or_create_case` carries exactly these fields. -/
structure Case where
  caseId : Nat
  caseReferenceId : String
  clientInitials : String
  createdBy : Nat
  createdAt : Nat
  lastUpdated : Nat
  status : String
deriving DecidableEq

/-- The autoincrement primary key drawn for a freshly inserted case. -/
def nextCaseId (db : List Case) : Nat :=
  db.foldr (fun c m => max c.caseId m) 0 + 1

/-- src/services/case_service.py, `get_or_create_case` (lines 15-68): look
up by the reference string alone — the owning user is not part of the
filter — bump `last_updated` on a hit, insert a fresh `active` case owned by
the calling user on a miss. Returns the result dict and the cases table. -/
def get_or_create_case (db : List Case) (case_reference_id client_initials : String)
    (user_id : Nat) (now : Nat) : Case × List Case :=
  match db.find? (fun c => c.caseReferenceId == case_reference_id) with
  | some c =>
    let c2 := { c with lastUpdated := now }
    (c2, updateFirst (fun x => x.caseReferenceId == case_reference_id) (fun _ => c2) db)
  | none =>
    let c : Case := ⟨nextCaseId db, case_reference_id, client_initials, user_id,
      now, now, "active"⟩
    (c, db ++ [c])

/-- The `recordings` table row (src/database/models.py, class Recording),
restricted to the columns the services read or write. -/
structure Recording where
  recordingId : Nat
  caseId : Nat
  uploadedBy : Nat
  recordingDate : Nat
  recordingType : String
  filePath : String
  fileSize : Option Nat
  durationSeconds : Option ℚ
  transcriptionStatus : String
  transcriptionStartedAt : Option Nat
  transcriptionCompletedAt : Option Nat
  transcriptText : Option String
  summaryText : Option String
  additionalNotes : String
  tags : String
  createdAt : Nat
deriving DecidableEq

/-- The `recording_data` dict passed to `create_recording`; the `.get`
defaults for notes and tags are the structure defaults. -/
structure RecordingData where
  recordingDate : Nat
  recordingType : String
  filePath : String
  fileSize : Option Nat := none
  durationSeconds : Option ℚ := none
  additionalNotes : String := ""
  tags : String := ""
deriving DecidableEq

/-- The autoincrement primary key drawn for a freshly inserted recording. -/
def nextRecordingId (db : List Recording) : Nat :=
  db.foldr (fun r m => max r.recordingId m) 0 + 1

/-- src/services/case_service.py, `create_recording` (lines 141-183):
insert a row with `transcription_status='pending'`, no transcript, no
summary, no processing timestamps. -/
def create_recording (db : List Recording) (case_id user_id : Nat)
    (rd : RecordingData) (now : Nat) : Recording × List Recording :=
  let r : Recording := ⟨nextRecordingId db, case_id, user_id, rd.recordingDate,
    rd.recordingType, rd.filePath, rd.fileSize, rd.durationSeconds, "pending",
    none, none, none, none, rd.additionalNotes, rd.tags, now⟩
  (r, db ++ [r])

/-- src/services/case_service.py, `update_recording_transcript` (lines
201-212): if the recording exists, set the transcript, move the status to
`completed` and stamp the completion time; otherwise do nothing. -/
def update_recording_transcript (db : List Recording) (recording_id : Nat)
    (transcript : String) (now : Nat) : List Recording :=
  updateFirst (fun r => r.recordingId == recording_id)
    (fun r => { r with transcriptText := some transcript,
                       transcriptionStatus := "completed",
                       transcriptionCompletedAt := some now }) db

/-- src/services/case_service.py, `update_recording_summary` (lines
215-224): if the recording exists, set the summary; otherwise do nothing. -/
def update_recording_summary (db : List Recording) (recording_id : Nat)
    (summary : String) : List Recording :=
  updateFirst (fun r => r.recordingId == recording_id)
    (fun r => { r with summaryText := some summary }) db

/-- C10: updating the transcript or the summary of a recording id that is
not in the database returns normally and leaves the table unchanged — the
`if recording:` guard makes the call a silent no-op. -/
theorem update_recording_missing_noop (db : List Recording) (rid : Nat)
    (transcript summary : String) (now : Nat)
    (h : db.find? (fun r => r.recordingId == rid) = none) :
    update_recording_transcript db rid transcript now = db ∧
    update_recording_summary db rid summary = db :=
  ⟨updateFirst_of_find?_none _ _ db h, updateFirst_of_find?_none _ _ db h⟩

/-- Witness for C10: a table holding recording 1 is untouched by updates
aimed at the absent recording 2. -/
theorem update_recording_missing_noop_witness :
    update_recording_transcript
        [⟨1, 1, 1, 0, "phone", "f", none, none, "pending", none, none, none,
          none, "", "", 0⟩] 2 "T" 9 =
      [⟨1, 1, 1, 0, "phone", "f", none, none, "pending", none, none, none,
        none, "", "", 0⟩] ∧
    update_recording_summary
        [⟨1, 1, 1, 0, "phone", "f", none, none, "pending", none, none, none,
          none, "", "", 0⟩] 2 "S" =
      [⟨1, 1, 1, 0, "phone", "f", none, none, "pending", none, none, none,
        none, "", "", 0⟩] :=
  update_recording_missing_noop
    [⟨1, 1, 1, 0, "phone", "f", none, none, "pending", none, none, none,
      none, "", "", 0⟩] 2 "T" "S" 9 (by decide)

/-- C7 counterexample: with an empty table, user 1 creates `CASE-1`; a call
by user 2 with the same reference resolves to the *same* case id 1, still
owned by user 1 — not to a distinct case owned by user 2. -/
theorem get_or_create_case_cross_user_counterexample :
    (get_or_create_case (get_or_create_case [] "CASE-1" "AB" 1 100).2
        "CASE-1" "CD" 2 200).1.caseId =
      (get_or_create_case [] "CASE-1" "AB" 1 100).1.caseId ∧
    (get_or_create_case (get_or_create_case [] "CASE-1" "AB" 1 100).2
        "CASE-1" "CD" 2 200).1.createdBy = 1 := by
  decide

/-- C7 as amended: two `get_or_create_case` calls with the same reference
string resolve to the same case id, and `last_updated` is set to the time
of the second call (so it advances whenever the clock does); but the lookup
ignores the user, so the second call — by any user — returns the one
existing case, whose `created_by` stays the first caller. -/
theorem get_or_create_case_shared_reference (db : List Case)
    (ref initials1 initials2 : String) (userA userB now1 now2 : Nat)
    (hnone : db.find? (fun c => c.caseReferenceId == ref) = none) :
    (get_or_create_case db ref initials1 userA now1).1.caseId = nextCaseId db ∧
    (get_or_create_case db ref initials1 userA now1).1.createdBy = userA ∧
    (get_or_create_case db ref initials1 userA now1).1.lastUpdated = now1 ∧
    (get_or_create_case (get_or_create_case db ref initials1 userA now1).2
        ref initials2 userB now2).1.caseId = nextCaseId db ∧
    (get_or_create_case (get_or_create_case db ref initials1 userA now1).2
        ref initials2 userB now2).1.createdBy = userA ∧
    (get_or_create_case (get_or_create_case db ref initials1 userA now1).2
        ref initials2 userB now2).1.lastUpdated = now2 := by
  have h1 : get_or_create_case db ref initials1 userA now1 =
      (⟨nextCaseId db, ref, initials1, userA, now1, now1, "active"⟩,
       db ++ [⟨nextCaseId db, ref, initials1, userA, now1, now1, "active"⟩]) := by
    rw [get_or_create_case, hnone]
  have hfind2 : (db ++ [(⟨nextCaseId db, ref, initials1, userA, now1, now1,
      "active"⟩ : Case)]).find? (fun c => c.caseReferenceId == ref) =
      some ⟨nextCaseId db, ref, initials1, userA, now1, now1, "active"⟩ := by
    rw [find?_append_of_none _ _ _ hnone]
    simp [List.find?_cons]
  have h2 : get_or_create_case (db ++ [(⟨nextCaseId db, ref, initials1, userA,
      now1, now1, "active"⟩ : Case)]) ref initials2 userB now2 =
      (⟨nextCaseId db, ref, initials1, userA, now1, now2, "active"⟩,
       updateFirst (fun x => x.caseReferenceId == ref)
         (fun _ => ⟨nextCaseId db, ref, initials1, userA, now1, now2, "active"⟩)
         (db ++ [⟨nextCaseId db, ref, initials1, userA, now1, now1, "active"⟩])) := by
    rw [get_or_create_case, hfind2]
  rw [h1]
  refine ⟨rfl, rfl, rfl, ?_, ?_, ?_⟩ <;> rw [h2]

/-- Witness for the amended C7 on an empty table: both calls resolve to case
id 1, created by user 1, with `last_updated` 200 after the second call. -/
theorem get_or_create_case_shared_reference_witness :
    (get_or_create_case [] "CASE-1" "AB" 1 100).1.caseId = 1 ∧
    (get_or_create_case (get_or_create_case [] "CASE-1" "AB" 1 100).2
        "CASE-1" "CD" 2 200).1.caseId = 1 ∧
    (get_or_create_case (get_or_create_case [] "CASE-1" "AB" 1 100).2
        "CASE-1" "CD" 2 200).1.createdBy = 1 ∧
    (get_or_create_case (get_or_create_case [] "CASE-1" "AB" 1 100).2
        "CASE-1" "CD" 2 200).1.lastUpdated = 200 := by
  obtain ⟨ha, hb, _, hc, hd, he⟩ :=
    get_or_create_case_shared_reference [] "CASE-1" "AB" "CD" 1 2 100 200
      (by decide)
  exact ⟨ha, hc, hd, he⟩

/-! ## Transcription pipeline (src/services/transcription_service.py) -/

/-- Python `f"{n:02d}"`. -/
def padTwo (n : Nat) : String :=
  if n < 10 then "0" ++ toString n else toString n

/-- src/services/transcription_service.py, `_format_timestamp`: seconds as
`MM:SS`. -/
def format_timestamp (seconds : Nat) : String :=
  padTwo (seconds / 60) ++ ":" ++ padTwo (seconds % 60)

/-- One Whisper segment (start time and text), as consumed by
`_format_transcript_with_timestamps`. -/
structure Segment where
  start : Nat
  text : String
deriving DecidableEq

/-- src/services/transcription_service.py,
`_format_transcript_with_timestamps`: `[MM:SS] text` lines joined by blank
lines. -/
def format_transcript_with_timestamps (segments : List Segment) : String :=
  String.intercalate "\n\n"
    (segments.map (fun s => "[" ++ format_timestamp s.start ++ "] " ++ s.text.trim))

/-- The Whisper API response (`verbose_json`): full text, optional segment
timing, optional duration. -/
structure WhisperResult where
  text : String
  segments : List Segment
  duration : Option ℚ
deriving DecidableEq

/-- Python `str.split()`: split on whitespace, dropping empty pieces. -/
def splitWords (s : String) : List String :=
  (s.split (fun c => c.isWhitespace)).filter (fun w => w != "")

/-- The dict returned by `transcribe_recording`: `success`, `transcript`,
`text_only`, `word_count`, `duration` on success; `success`, `error` on
failure. -/
structure TranscribeResult where
  success : Bool
  transcript : Option String
  textOnly : Option String
  wordCount : Option Nat
  duration : Option ℚ
  error : Option String
deriving DecidableEq

/-- The first session block of `transcribe_recording` (lines 44-49): if the
recording exists, move it to `processing` and stamp the start time. -/
def mark_processing (db : List Recording) (recording_id now : Nat) : List Recording :=
  updateFirst (fun r => r.recordingId == recording_id)
    (fun r => { r with transcriptionStatus := "processing",
                       transcriptionStartedAt := some now }) db

/-- The exception handler of `transcribe_recording` (lines 100-111): if the
recording exists, move it to `failed`. -/
def mark_failed (db : List Recording) (recording_id : Nat) : List Recording :=
  updateFirst (fun r => r.recordingId == recording_id)
    (fun r => { r with transcriptionStatus := "failed" }) db

/-- src/services/transcription_service.py, `transcribe_recording` (lines
25-116): mark the recording `processing`, load and decrypt the audio via
`load_audio`, call the Whisper collaborator, and on success write the
formatted transcript through `update_recording_transcript`. Any failure
(missing file, decryption error, collaborator error) is caught by the
`except` block: the recording is marked `failed` and a failure dict is
returned instead of raising. -/
def transcribe_recording (whisper : List Nat → Except String WhisperResult)
    (c : Cipher) (key : List Nat) (fs : FileStore) (now recording_id : Nat)
    (file_path : String) (db : List Recording) :
    TranscribeResult × List Recording :=
  let db1 := mark_processing db recording_id now
  match load_audio c key fs file_path with
  | Except.error e => (⟨false, none, none, none, none, some e⟩, mark_failed db1 recording_id)
  | Except.ok audio =>
    match whisper audio with
    | Except.error e => (⟨false, none, none, none, none, some e⟩, mark_failed db1 recording_id)
    | Except.ok t =>
      let formatted := if t.segments.isEmpty then t.text
                       else format_transcript_with_timestamps t.segments
      (⟨true, some formatted, some t.text, some (splitWords t.text).length,
        t.duration, none⟩,
       update_recording_transcript db1 recording_id formatted now)

/-! ## Summarization (src/services/summarization_service.py) -/

/-- src/services/summarization_service.py, `_get_system_prompt`. -/
def system_prompt : String :=
  "You are an expert social worker assistant specializing in writing professional case notes.\n\nYour task is to generate clear, concise, and professional case notes from conversation transcripts.\n\nGuidelines:\n- Write in third person, professional tone\n- Use clear, objective language\n- Focus on facts and observations\n- Organize information logically\n- Include relevant context\n- Highlight key points and action items\n- Keep notes concise but comprehensive\n- Use appropriate social work terminology\n\nStructure your case notes with these sections:\n1. **Overview**: Brief summary of the interaction\n2. **Key Discussion Points**: Main topics covered\n3. **Client Situation**: Current circumstances and concerns\n4. **Decisions/Agreements**: What was decided or agreed upon\n5. **Action Items**: Next steps and follow-up needed\n6. **Risk Assessment** (if applicable): Any concerns or risks identified\n\nWrite professional case notes suitable for official records."

/-- The `interaction_type` dict lookup with default in `_build_user_prompt`;
`recording_type` defaults to `None` in Python, hence the `Option`. -/
def interaction_type (recordingType : Option String) : String :=
  match recordingType with
  | some "phone" => "phone call"
  | some "home_visit" => "home visit"
  | some "office" => "office meeting"
  | _ => "interaction"

/-- src/services/summarization_service.py, `_build_user_prompt`. -/
def build_user_prompt (transcript : String) (recordingType : Option String) : String :=
  "Please generate a professional case note from this " ++
    interaction_type recordingType ++
    " transcript:\n\n---\nTRANSCRIPT:\n" ++ transcript ++
    "\n---\n\nGenerate a structured case note following the format specified in the system prompt."

/-- The dict returned by `generate_summary`. -/
structure SummaryResult where
  success : Bool
  summary : Option String
  tokensUsed : Option Nat
  error : Option String
deriving DecidableEq

/-- src/services/summarization_service.py, `generate_summary` (lines 26-75):
build the prompts, call the GPT collaborator (content and token count on
success), strip the content and write it through `update_recording_summary`.
There is no check of the recording state — the transcript argument is
trusted. Failures return a failure dict without touching the table. -/
def generate_summary (summarize : String → String → Except String (String × Nat))
    (recording_id : Nat) (transcript : String) (recordingType : Option String)
    (db : List Recording) : SummaryResult × List Recording :=
  match summarize system_prompt (build_user_prompt transcript recordingType) with
  | Except.error e => (⟨false, none, none, some e⟩, db)
  | Except.ok (content, totalTokens) =>
    let summary := content.trim
    (⟨true, some summary, some totalTokens, none⟩,
     update_recording_summary db recording_id summary)

/-- C2: whenever `transcribe_recording` on a stored recording returns a
failure (`success = False`) — decryption error, missing file, collaborator
error — it carries an error message, returns no transcript, and the
recording ends with status `failed` (never stuck in `processing`) with its
transcript and summary text untouched. The error is a returned value, not a
raised exception: the embedding is a total function. -/
theorem transcribe_recording_failure (whisper : List Nat → Except String WhisperResult)
    (c : Cipher) (key : List Nat) (fs : FileStore) (now rid : Nat)
    (file_path : String) (db : List Recording) (r : Recording)
    (hr : db.find? (fun x => x.recordingId == rid) = some r)
    (hfail : (transcribe_recording whisper c key fs now rid file_path db).1.success = false) :
    (transcribe_recording whisper c key fs now rid file_path db).1.error.isSome = true ∧
    (transcribe_recording whisper c key fs now rid file_path db).1.transcript = none ∧
    ∃ r2, (transcribe_recording whisper c key fs now rid file_path db).2.find?
        (fun x => x.recordingId == rid) = some r2 ∧
      r2.transcriptionStatus = "failed" ∧
      r2.transcriptText = r.transcriptText ∧
      r2.summaryText = r.summaryText := by
  have hmatch : (r.recordingId == rid) = true := by
    simpa using List.find?_some hr
  have h1 : (mark_processing db rid now).find? (fun x => x.recordingId == rid) =
      some { r with transcriptionStatus := "processing",
                    transcriptionStartedAt := some now } := by
    apply find?_updateFirst _ _ _ _ hr
    simpa using hmatch
  have h2 : (mark_failed (mark_processing db rid now) rid).find?
      (fun x => x.recordingId == rid) =
      some { r with transcriptionStatus := "failed",
                    transcriptionStartedAt := some now } := by
    have := find?_updateFirst (fun x => x.recordingId == rid)
      (fun x => { x with transcriptionStatus := "failed" })
      (mark_processing db rid now) _ h1 (by simpa using hmatch)
    simpa [mark_failed] using this
  cases hload : load_audio c key fs file_path with
  | error e =>
    refine ⟨?_, ?_, ?_⟩
    · simp [transcribe_recording, hload]
    · simp [transcribe_recording, hload]
    · refine ⟨{ r with transcriptionStatus := "failed", transcriptionStartedAt := some now }, ?_, rfl, rfl, rfl⟩
      simp only [transcribe_recording, hload]
      exact h2
  | ok audio =>
    cases hwh : whisper audio with
    | error e =>
      refine ⟨?_, ?_, ?_⟩
      · simp [transcribe_recording, hload, hwh]
      · simp [transcribe_recording, hload, hwh]
      · refine ⟨{ r with transcriptionStatus := "failed", transcriptionStartedAt := some now }, ?_, rfl, rfl, rfl⟩
        simp only [transcribe_recording, hload, hwh]
        exact h2
    | ok t =>
      rw [transcribe_recording] at hfail
      simp [hload, hwh] at hfail

/-- Witness for C2: transcribing recording 1 while the Whisper collaborator
is down returns a failure dict and leaves the recording `failed`. -/
theorem transcribe_recording_failure_witness :
    (transcribe_recording (fun _ => Except.error "api down") toyCipher [1]
        (fun _ => none) 5 1 "f"
        [⟨1, 1, 1, 0, "phone", "f", none, none, "pending", none, none, none,
          none, "", "", 0⟩]).1.success = false ∧
    (transcribe_recording (fun _ => Except.error "api down") toyCipher [1]
        (fun _ => none) 5 1 "f"
        [⟨1, 1, 1, 0, "phone", "f", none, none, "pending", none, none, none,
          none, "", "", 0⟩]).1.error.isSome = true ∧
    (transcribe_recording (fun _ => Except.error "api down") toyCipher [1]
        (fun _ => none) 5 1 "f"
        [⟨1, 1, 1, 0, "phone", "f", none, none, "pending", none, none, none,
          none, "", "", 0⟩]).1.transcript = none ∧
    ((transcribe_recording (fun _ => Except.error "api down") toyCipher [1]
        (fun _ => none) 5 1 "f"
        [⟨1, 1, 1, 0, "phone", "f", none, none, "pending", none, none, none,
          none, "", "", 0⟩]).2.find? (fun x => x.recordingId == 1)).map
      (fun x => x.transcriptionStatus) = some "failed" := by
  have h := transcribe_recording_failure (fun _ => Except.error "api down")
    toyCipher [1] (fun _ => none) 5 1 "f"
    [⟨1, 1, 1, 0, "phone", "f", none, none, "pending", none, none, none,
      none, "", "", 0⟩]
    ⟨1, 1, 1, 0, "phone", "f", none, none, "pending", none, none, none,
      none, "", "", 0⟩ (by decide) (by decide)
  refine ⟨by decide, h.1, h.2.1, ?_⟩
  obtain ⟨r2, hfind, hstat, _, _⟩ := h.2.2
  rw [hfind]
  simp [hstat]

/-! ## The summary/transcript invariant (C5, C6) -/

/-- The data-model invariant: a recording may carry a summary only if it
carries a transcript. -/
def RecInv (db : List Recording) : Prop :=
  ∀ r ∈ db, r.summaryText.isSome = true → r.transcriptText.isSome = true

instance (db : List Recording) : Decidable (RecInv db) := by
  unfold RecInv
  infer_instance

theorem mem_updateFirst {α : Type} (p : α → Bool) (f : α → α) :
    ∀ (l : List α) (x : α), x ∈ updateFirst p f l →
      x ∈ l ∨ ∃ y, l.find? p = some y ∧ x = f y := by
  intro l
  induction l with
  | nil => intro x hx; simp [updateFirst] at hx
  | cons a t ih =>
    intro x hx
    cases hp : p a with
    | true =>
      simp only [updateFirst, hp, if_true, List.mem_cons] at hx
      rcases hx with hx | hx
      · right
        exact ⟨a, by simp [List.find?_cons, hp], hx⟩
      · left
        exact List.mem_cons_of_mem a hx
    | false =>
      simp [updateFirst, hp] at hx
      rcases hx with hx | hx
      · left
        simp [hx]
      · rcases ih x hx with hmem | ⟨y, hy, hxy⟩
        · left
          exact List.mem_cons_of_mem a hmem
        · right
          refine ⟨y, ?_, hxy⟩
          rw [List.find?_cons]
          simp [hp, hy]

theorem recInv_updateFirst (p : Recording → Bool) (f : Recording → Recording)
    (db : List Recording) (hdb : RecInv db)
    (hf : ∀ y, db.find? p = some y →
      ((f y).summaryText.isSome = true → (f y).transcriptText.isSome = true)) :
    RecInv (updateFirst p f db) := by
  intro x hx h
  rcases mem_updateFirst p f db x hx with hmem | ⟨y, hy, rfl⟩
  · exact hdb x hmem h
  · exact hf y hy h

theorem recInv_create (db : List Recording) (cid uid : Nat) (rd : RecordingData)
    (now : Nat) (hdb : RecInv db) : RecInv (create_recording db cid uid rd now).2 := by
  intro x hx h
  rw [create_recording] at hx
  rcases List.mem_append.mp hx with hmem | hmem
  · exact hdb x hmem h
  · simp at hmem
    subst hmem
    simp at h

theorem recInv_update_transcript (db : List Recording) (rid : Nat) (t : String)
    (now : Nat) (hdb : RecInv db) : RecInv (update_recording_transcript db rid t now) := by
  apply recInv_updateFirst _ _ _ hdb
  intro y _ _
  rfl

theorem recInv_mark_processing (db : List Recording) (rid now : Nat)
    (hdb : RecInv db) : RecInv (mark_processing db rid now) := by
  apply recInv_updateFirst _ _ _ hdb
  intro y hy h
  exact hdb y (List.mem_of_find?_eq_some hy) h

theorem recInv_mark_failed (db : List Recording) (rid : Nat)
    (hdb : RecInv db) : RecInv (mark_failed db rid) := by
  apply recInv_updateFirst _ _ _ hdb
  intro y hy h
  exact hdb y (List.mem_of_find?_eq_some hy) h

theorem recInv_transcribe (whisper : List Nat → Except String WhisperResult)
    (c : Cipher) (key : List Nat) (fs : FileStore) (now rid : Nat)
    (fp : String) (db : List Recording) (hdb : RecInv db) :
    RecInv (transcribe_recording whisper c key fs now rid fp db).2 := by
  cases hload : load_audio c key fs fp with
  | error e =>
    simp only [transcribe_recording, hload]
    exact recInv_mark_failed _ _ (recInv_mark_processing _ _ _ hdb)
  | ok audio =>
    cases hwh : whisper audio with
    | error e =>
      simp only [transcribe_recording, hload, hwh]
      exact recInv_mark_failed _ _ (recInv_mark_processing _ _ _ hdb)
    | ok t =>
      simp only [transcribe_recording, hload, hwh]
      exact recInv_update_transcript _ _ _ _ (recInv_mark_processing _ _ _ hdb)

theorem recInv_update_summary (db : List Recording) (rid : Nat) (s : String)
    (r : Recording) (hr : db.find? (fun x => x.recordingId == rid) = some r)
    (ht : r.transcriptText.isSome = true) (hdb : RecInv db) :
    RecInv (update_recording_summary db rid s) := by
  apply recInv_updateFirst _ _ _ hdb
  intro y hy _
  rw [hr] at hy
  injection hy with hy
  subst hy
  exact ht

theorem recInv_generate (summarize : String → String → Except String (String × Nat))
    (rid : Nat) (t : String) (rtype : Option String) (db : List Recording)
    (r : Recording) (hr : db.find? (fun x => x.recordingId == rid) = some r)
    (ht : r.transcriptText.isSome = true) (hdb : RecInv db) :
    RecInv (generate_summary summarize rid t rtype db).2 := by
  cases hs : summarize system_prompt (build_user_prompt t rtype) with
  | error e =>
    simp only [generate_summary, hs]
    exact hdb
  | ok p =>
    cases p with
    | mk content totalTokens =>
      simp only [generate_summary, hs]
      exact recInv_update_summary _ _ _ _ hr ht hdb

/-- C5 counterexample: the operation set itself can violate the invariant —
starting from an empty table, `create_recording` then
`update_recording_summary` on the fresh (transcript-less) recording yields
a state with a summary and no transcript. -/
theorem recording_invariant_counterexample :
    ¬ RecInv (update_recording_summary
        (create_recording [] 1 1 ⟨0, "phone", "f", none, none, "", ""⟩ 0).2 1 "S") ∧
    update_recording_summary
        (create_recording [] 1 1 ⟨0, "phone", "f", none, none, "", ""⟩ 0).2 1 "S" =
      [⟨1, 1, 1, 0, "phone", "f", none, none, "pending", none, none, none,
        some "S", "", "", 0⟩] := by
  decide

/-- C5 as amended: the invariant (summary non-null only if transcript
non-null) is preserved by `create_recording`, `update_recording_transcript`,
the `processing`/`failed` status updates and `transcribe_recording`
unconditionally, and by `update_recording_summary` and `generate_summary`
whenever the target recording holds a transcript — which is how the UI
invokes them; calling the summary writers on a transcript-less recording is
the one way to break it. -/
theorem recording_invariant_preserved :
    (∀ (db : List Recording) (cid uid : Nat) (rd : RecordingData) (now : Nat),
      RecInv db → RecInv (create_recording db cid uid rd now).2) ∧
    (∀ (db : List Recording) (rid : Nat) (t : String) (now : Nat),
      RecInv db → RecInv (update_recording_transcript db rid t now)) ∧
    (∀ (db : List Recording) (rid now : Nat),
      RecInv db → RecInv (mark_processing db rid now)) ∧
    (∀ (db : List Recording) (rid : Nat),
      RecInv db → RecInv (mark_failed db rid)) ∧
    (∀ (whisper : List Nat → Except String WhisperResult) (c : Cipher)
        (key : List Nat) (fs : FileStore) (now rid : Nat) (fp : String)
        (db : List Recording),
      RecInv db → RecInv (transcribe_recording whisper c key fs now rid fp db).2) ∧
    (∀ (db : List Recording) (rid : Nat) (s : String) (r : Recording),
      db.find? (fun x => x.recordingId == rid) = some r →
      r.transcriptText.isSome = true →
      RecInv db → RecInv (update_recording_summary db rid s)) ∧
    (∀ (summarize : String → String → Except String (String × Nat)) (rid : Nat)
        (t : String) (rtype : Option String) (db : List Recording) (r : Recording),
      db.find? (fun x => x.recordingId == rid) = some r →
      r.transcriptText.isSome = true →
      RecInv db → RecInv (generate_summary summarize rid t rtype db).2) :=
  ⟨recInv_create, recInv_update_transcript, recInv_mark_processing,
   recInv_mark_failed, recInv_transcribe, recInv_update_summary, recInv_generate⟩

/-- Witness for the amended C5: creating a recording in an empty table
preserves the invariant, and writing a summary to a recording that has a
transcript preserves it. -/
theorem recording_invariant_preserved_witness :
    RecInv (create_recording [] 1 1 ⟨0, "phone", "f", none, none, "", ""⟩ 0).2 ∧
    RecInv (update_recording_summary
        [⟨1, 1, 1, 0, "phone", "f", none, none, "completed", none, none,
          some "T", none, "", "", 0⟩] 1 "S") := by
  obtain ⟨hc, _, _, _, _, hu, _⟩ := recording_invariant_preserved
  refine ⟨hc [] 1 1 ⟨0, "phone", "f", none, none, "", ""⟩ 0 (by decide), ?_⟩
  exact hu [⟨1, 1, 1, 0, "phone", "f", none, none, "completed", none, none,
      some "T", none, "", "", 0⟩] 1 "S"
    ⟨1, 1, 1, 0, "phone", "f", none, none, "completed", none, none,
      some "T", none, "", "", 0⟩
    (by decide) (by decide) (by decide)

/-- C6 counterexample: `generate_summary` invoked for a recording whose
stored transcript is null is not rejected — the Summarizer collaborator is
called, its answer decides the outcome, and on success a summary is written
while the transcript stays null. -/
theorem generate_summary_counterexample :
    (generate_summary (fun _ _ => Except.ok ("S", 5)) 1 "" none
        (create_recording [] 1 1 ⟨0, "phone", "f", none, none, "", ""⟩ 0).2).1.success =
      true ∧
    ((generate_summary (fun _ _ => Except.ok ("S", 5)) 1 "" none
        (create_recording [] 1 1 ⟨0, "phone", "f", none, none, "", ""⟩ 0).2).2.find?
        (fun x => x.recordingId == 1)).map (fun x => x.summaryText.isSome) =
      some true ∧
    ((generate_summary (fun _ _ => Except.ok ("S", 5)) 1 "" none
        (create_recording [] 1 1 ⟨0, "phone", "f", none, none, "", ""⟩ 0).2).2.find?
        (fun x => x.recordingId == 1)).map (fun x => x.transcriptText) =
      some none := by
  refine ⟨rfl, ?_, ?_⟩ <;> rfl

/-- C6 as amended: `generate_summary` performs no transcript-presence check
and raises no IntegrityError: even when the stored transcript is null, the
outcome is decided entirely by the Summarizer call — a collaborator error is
returned as a failure dict with the table untouched, and a collaborator
success marks success and writes the stripped summary onto the
transcript-less recording. -/
theorem generate_summary_no_integrity_check
    (summarize : String → String → Except String (String × Nat)) (rid : Nat)
    (transcript : String) (rtype : Option String) (db : List Recording)
    (r : Recording)
    (hr : db.find? (fun x => x.recordingId == rid) = some r)
    (_hnt : r.transcriptText = none) :
    (∀ e, summarize system_prompt (build_user_prompt transcript rtype) =
        Except.error e →
      generate_summary summarize rid transcript rtype db =
        (⟨false, none, none, some e⟩, db)) ∧
    (∀ content tokens,
      summarize system_prompt (build_user_prompt transcript rtype) =
        Except.ok (content, tokens) →
      (generate_summary summarize rid transcript rtype db).1.success = true ∧
      (generate_summary summarize rid transcript rtype db).2.find?
          (fun x => x.recordingId == rid) =
        some { r with summaryText := some content.trim }) := by
  have hmatch : (r.recordingId == rid) = true := by
    simpa using List.find?_some hr
  constructor
  · intro e he
    simp [generate_summary, he]
  · intro content tokens hok
    constructor
    · simp [generate_summary, hok]
    · simp only [generate_summary, hok]
      rw [update_recording_summary]
      apply find?_updateFirst _ _ _ _ hr
      simpa using hmatch

/-- Witness for the amended C6: a transcript-less recording, a Summarizer
answering `S` — the call succeeds and the summary lands on the recording. -/
theorem generate_summary_no_integrity_check_witness :
    (generate_summary (fun _ _ => Except.ok ("S", 5)) 1 "T" (some "phone")
        [⟨1, 1, 1, 0, "phone", "f", none, none, "pending", none, none, none,
          none, "", "", 0⟩]).1.success = true ∧
    (generate_summary (fun _ _ => Except.ok ("S", 5)) 1 "T" (some "phone")
        [⟨1, 1, 1, 0, "phone", "f", none, none, "pending", none, none, none,
          none, "", "", 0⟩]).2.find? (fun x => x.recordingId == 1) =
      some ⟨1, 1, 1, 0, "phone", "f", none, none, "pending", none, none, none,
        some ("S".trim), "", "", 0⟩ := by
  have h := generate_summary_no_integrity_check (fun _ _ => Except.ok ("S", 5))
    1 "T" (some "phone")
    [⟨1, 1, 1, 0, "phone", "f", none, none, "pending", none, none, none,
      none, "", "", 0⟩]
    ⟨1, 1, 1, 0, "phone", "f", none, none, "pending", none, none, none,
      none, "", "", 0⟩ (by decide) (by decide)
  exact h.2 "S" 5 rfl

end EquiCare
